import Mathlib

/-!
Shallow embedding of the technical-analysis engine in `src/utils/crypto.ts`
(repository matan1010/crypto-analytics).  JavaScript numbers are modelled as
exact rationals `ℚ`; `Math.sqrt` — whose value no verified property depends
on — is passed in as an explicit function parameter `sqrtFn` wherever the
source calls it; division by zero in `ℚ` is Lean's total `x / 0 = 0`, and is
reached only on inputs where the JS source would itself produce `NaN` or
throw (each such spot is noted).  Fallible field accesses (`data[0]` on an
empty array, which throws in JS) are modelled with `Option`.
-/

/-- One OHLCV bar, mirroring the `CandleData` interface
(`time`, `open`, `high`, `low`, `close`, `volume`). -/
structure CandleData where
  time : ℚ
  «open» : ℚ
  high : ℚ
  low : ℚ
  close : ℚ
  volume : ℚ
deriving DecidableEq

/-- Placeholder candle used as the (unreachable) default of total lookups
that the JS source performs without a guard inside already-guarded code. -/
def dummyCandle : CandleData := ⟨0, 0, 0, 0, 0, 0⟩

instance : Inhabited CandleData := ⟨dummyCandle⟩

/-- `Math.max(...xs)` over a non-empty spread; the source only ever spreads
non-empty arrays, so the `[]` default (JS would give `-Infinity`) is free. -/
def maxList : List ℚ → ℚ
  | [] => 0
  | x :: xs => xs.foldl max x

/-- `Math.min(...xs)`; same remark as `maxList`. -/
def minList : List ℚ → ℚ
  | [] => 0
  | x :: xs => xs.foldl min x

/-- `xs.reduce((a, b) => a + b, 0)`. -/
def sumList (xs : List ℚ) : ℚ := xs.foldl (· + ·) 0

/-- `data.slice(-n)` — the last `n` entries (the whole list when shorter). -/
def lastN (n : ℕ) (data : List CandleData) : List CandleData :=
  data.drop (data.length - n)

--=============================================================================
-- BASIC INDICATORS
--=============================================================================

/-- `calculateSMA(data, period)`: mean of the last `period` closes; on a
series shorter than `period` it returns `data[data.length - 1]?.close || 0`
(last close, or 0 when empty — `|| 0` also maps a literal 0 close to 0,
which coincides with returning the close itself). -/
def calculateSMA (data : List CandleData) (period : ℕ) : ℚ :=
  if data.length < period then
    ((data.getLast?).map CandleData.close).getD 0
  else
    sumList ((lastN period data).map CandleData.close) / (period : ℚ)

/-- `calculateEMA(data, period?)`: seeds from `data[0].close` with **no**
empty-series guard (JS throws a `TypeError` on `[]`, modelled as `none`);
`period || data.length` makes both an omitted and a zero period fall back
to the slice length. -/
def calculateEMA (data : List CandleData) (period : Option ℚ) : Option ℚ :=
  match data with
  | [] => none
  | first :: rest =>
    let p : ℚ := match period with
      | none => (data.length : ℚ)
      | some q => if q = 0 then (data.length : ℚ) else q
    let multiplier := 2 / (p + 1)
    some (rest.foldl (fun ema c => (c.close - ema) * multiplier + ema) first.close)

/-- The change list `data[i].close - data[i-1].close` for `i = 1..len-1`. -/
def closeChanges (data : List CandleData) : List ℚ :=
  (data.zip (data.drop 1)).map (fun pc => pc.2.close - pc.1.close)

/-- One Wilder smoothing step of `calculateRSI`'s second loop, acting on the
pair (avgGain, avgLoss). -/
def rsiStep (period : ℚ) (gl : ℚ × ℚ) (change : ℚ) : ℚ × ℚ :=
  if 0 ≤ change then
    ((gl.1 * (period - 1) + change) / period, gl.2 * (period - 1) / period)
  else
    (gl.1 * (period - 1) / period, (gl.2 * (period - 1) - change) / period)

/-- The first loop of `calculateRSI`: total gains and losses over the first
`period` changes (both accumulated non-negatively), divided by `period`. -/
def rsiInitAvg (data : List CandleData) (period : ℕ) : ℚ × ℚ :=
  ((((closeChanges data).take period).foldl
      (fun gl c => if 0 ≤ c then (gl.1 + c, gl.2) else (gl.1, gl.2 - c))
      (0, 0)).1 / (period : ℚ),
    (((closeChanges data).take period).foldl
      (fun gl c => if 0 ≤ c then (gl.1 + c, gl.2) else (gl.1, gl.2 - c))
      (0, 0)).2 / (period : ℚ))

/-- The smoothed (avgGain, avgLoss) pair after `calculateRSI`'s second loop
over the changes beyond the first `period`. -/
def rsiFinalAvg (data : List CandleData) (period : ℕ) : ℚ × ℚ :=
  ((closeChanges data).drop period).foldl (rsiStep (period : ℚ))
    (rsiInitAvg data period)

/-- `calculateRSI(data, period = 14)`: returns 50 below `period + 1` candles;
otherwise Wilder-smooths (via `rsiFinalAvg`), returns 100 on zero average
loss, else `100 - 100 / (1 + rs)` with `rs = avgGain / avgLoss`. -/
def calculateRSI (data : List CandleData) (period : ℕ) : ℚ :=
  if data.length < period + 1 then 50
  else if (rsiFinalAvg data period).2 = 0 then 100
  else 100 - 100 /
    (1 + (rsiFinalAvg data period).1 / (rsiFinalAvg data period).2)

--=============================================================================
-- VOLATILITY INDICATORS
--=============================================================================

/-- Result record of `calculateBollingerBands`. -/
structure BollingerBands where
  upper : ℚ
  middle : ℚ
  lower : ℚ
  stdDev : ℚ
deriving DecidableEq

/-- `calculateBollingerBands(data, period = 20, stdDev = 2)`: middle =
SMA(period); the standard deviation sums squared deviations over the **whole
slice** but divides by `period`; `Math.sqrt` is the parameter `sqrtFn`. -/
def calculateBollingerBands (sqrtFn : ℚ → ℚ) (data : List CandleData)
    (period : ℕ) (stdDev : ℚ) : BollingerBands :=
  let sma := calculateSMA data period
  let standardDeviation := sqrtFn
    (sumList (data.map (fun c => (c.close - sma) ^ 2)) / (period : ℚ))
  { upper := sma + stdDev * standardDeviation
    middle := sma
    lower := sma - stdDev * standardDeviation
    stdDev := standardDeviation }

/-- The true-range list of `calculateATR`: `data.slice(1)` zipped with its
predecessor, each pair mapped to `max(high-low, |high-prevClose|,
|low-prevClose|)`. -/
def trueRanges (data : List CandleData) : List ℚ :=
  (data.zip (data.drop 1)).map (fun pc =>
    max (pc.2.high - pc.2.low) (max |pc.2.high - pc.1.close| |pc.2.low - pc.1.close|))

/-- `calculateATR(data, period = 14)`: the true ranges of the whole slice
summed and divided by `period` (not by the number of true ranges). -/
def calculateATR (data : List CandleData) (period : ℚ) : ℚ :=
  sumList (trueRanges data) / period

/-- `calculateVolatility(data, period = 20)` — the `period` parameter is
accepted and ignored by the source; per-candle returns, their mean and
population variance over `returns.length`, then `sqrt * 100`.  On fewer
than two candles the JS source divides 0 by 0 (NaN); in ℚ this is 0. -/
def calculateVolatility (sqrtFn : ℚ → ℚ) (data : List CandleData)
    (_period : ℕ) : ℚ :=
  let returns := (data.zip (data.drop 1)).map
    (fun pc => (pc.2.close - pc.1.close) / pc.1.close)
  let meanReturn := sumList returns / (returns.length : ℚ)
  let variance :=
    sumList (returns.map (fun r => (r - meanReturn) ^ 2)) / (returns.length : ℚ)
  sqrtFn variance * 100

--=============================================================================
-- TREND INDICATORS
--=============================================================================

/-- `calculateMomentum(data)`: percent change from first to last close.
JS throws on `[]` (unreached: the summary calls it on 14 candles); the
`dummyCandle` default and ℚ's `0 / 0 = 0` make the model total. -/
def calculateMomentum (data : List CandleData) : ℚ :=
  ((data.getLastD dummyCandle).close - (data.headD dummyCandle).close) /
    (data.headD dummyCandle).close * 100

--=============================================================================
-- VOLUME ANALYSIS
--=============================================================================

/-- `Math.round(q)` — JS rounds half toward positive infinity. -/
def jsRound (q : ℚ) : ℤ := ⌊q + 1/2⌋

/-- Accumulate one candle's volume into the `volumeByPrice` object of
`analyzeVolumeProfile`, modelled as an association list keyed by the
rounded price level (existing key updated in place, new key appended). -/
def addVolume : List (ℤ × ℚ) → ℤ → ℚ → List (ℤ × ℚ)
  | [], k, v => [(k, v)]
  | (k', v') :: rest, k, v =>
    if k' = k then (k', v' + v) :: rest else (k', v') :: addVolume rest k v

/-- Insert an entry into a list sorted by ascending key. -/
def insertEntry (e : ℤ × ℚ) : List (ℤ × ℚ) → List (ℤ × ℚ)
  | [] => [e]
  | x :: xs => if e.1 < x.1 then e :: x :: xs else x :: insertEntry e xs

/-- `Object.entries(volumeByPrice)`: JS iterates canonical integer keys in
ascending numeric order (the keys here are rounded price levels, non-negative
for the positive prices of §3 of the spec). -/
def sortEntries (l : List (ℤ × ℚ)) : List (ℤ × ℚ) := l.foldr insertEntry []

/-- Result record of `analyzeVolumeProfile`. -/
structure VolumeProfileSummary where
  poc : ℚ
  maxVolume : ℚ
deriving DecidableEq

/-- `analyzeVolumeProfile(data)`: buckets volume by `Math.round(close/10)*10`,
`maxVolume` = largest bucket, `poc` = key of the entry kept by
`reduce((a, b) => a[1] > b[1] ? a : b)` (the last maximal entry in key
order).  On `[]` the JS `reduce` with no seed throws — unreached, the
summary calls it on 100 candles — modelled by the `(0, 0)` fallback. -/
def analyzeVolumeProfile (data : List CandleData) : VolumeProfileSummary :=
  let volumeByPrice := data.foldl
    (fun acc c => addVolume acc (jsRound (c.close / 10) * 10) c.volume) []
  let entries := sortEntries volumeByPrice
  let maxVolume := maxList (entries.map Prod.snd)
  let maxVolumePrice : ℚ :=
    match entries with
    | [] => 0
    | e :: rest => ((rest.foldl (fun a b => if a.2 > b.2 then a else b) e).1 : ℚ)
  { poc := maxVolumePrice, maxVolume := maxVolume }

/-- `calculateCVD(data)`: running sum of `close > open ? volume : -volume`. -/
def calculateCVD (data : List CandleData) : ℚ :=
  data.foldl (fun cvd c =>
    cvd + (if c.close > c.«open» then c.volume else -c.volume)) 0

/-- One element of the list built by `analyzeDeltaVolume`. -/
structure DeltaVolume where
  time : ℚ
  delta : ℚ
  cumulative : ℚ
deriving DecidableEq

instance : Inhabited DeltaVolume := ⟨⟨0, 0, 0⟩⟩

/-- The second pass of `analyzeDeltaVolume`: walk the list in order,
overwriting each `cumulative` field with the running total. -/
def fillCumulative (acc : ℚ) : List DeltaVolume → List DeltaVolume
  | [] => []
  | dv :: rest =>
    let cum := acc + dv.delta
    ⟨dv.time, dv.delta, cum⟩ :: fillCumulative cum rest

/-- `analyzeDeltaVolume(data)`: first maps every candle to
`{time, delta, cumulative: 0}` with `delta = close > open ? volume :
-volume`, then overwrites `cumulative` with the running sum. -/
def analyzeDeltaVolume (data : List CandleData) : List DeltaVolume :=
  fillCumulative 0 (data.map (fun c =>
    ⟨c.time, if c.close > c.«open» then c.volume else -c.volume, 0⟩))

--=============================================================================
-- SUPPORT & RESISTANCE
--=============================================================================

/-- Kind tag of an order block. -/
inductive BlockType where
  | bullish
  | bearish
deriving DecidableEq

/-- One entry of the array built by `findOrderBlocks`. -/
structure OrderBlock where
  type : BlockType
  top : ℚ
  bottom : ℚ
  time : ℚ
deriving DecidableEq

/-- `findOrderBlocks(data)`: the loop runs `i` from **1** to
`data.length - 2` (so the pair `(data[0], data[1])` is never examined);
for each `i` it may push a bullish block (bearish candle followed by a
bullish candle closing above its high) and/or a bearish block (the mirror
case), both recording `current`'s high, low and time. -/
def findOrderBlocks (data : List CandleData) : List OrderBlock :=
  (List.range' 1 (data.length - 2)).flatMap (fun i =>
    let current := data.getD i dummyCandle
    let next := data.getD (i + 1) dummyCandle
    (if current.close < current.«open» ∧ next.close > next.«open» ∧
        next.close > current.high
     then [⟨.bullish, current.high, current.low, current.time⟩] else []) ++
    (if current.close > current.«open» ∧ next.close < next.«open» ∧
        next.close < current.low
     then [⟨.bearish, current.high, current.low, current.time⟩] else []))

/-- Result record of `findSupportResistanceAndOrderBlocks`. -/
structure SupportResistance where
  support : ℚ
  resistance : ℚ
  orderBlocks : List OrderBlock

/-- `findSupportResistanceAndOrderBlocks(data)`: range extrema plus the
order-block scan. -/
def findSupportResistanceAndOrderBlocks (data : List CandleData) :
    SupportResistance :=
  { support := minList (data.map CandleData.low)
    resistance := maxList (data.map CandleData.high)
    orderBlocks := findOrderBlocks data }

--=============================================================================
-- MARKET ANALYSIS
--=============================================================================

/-- `calculateRiskLevel(rsi, volatility, momentum, atr)`: four binary
contributions averaged, then mapped to the source's Hebrew labels for
high / medium / low at thresholds 1.5 and 1. -/
def calculateRiskLevel (rsi volatility momentum atr : ℚ) : String :=
  let riskScore : ℚ :=
    ((if rsi > 70 ∨ rsi < 30 then 2 else 1) +
     (if volatility > 5 then 2 else 1) +
     (if |momentum| > 10 then 2 else 1) +
     (if atr > 100 then 2 else 1)) / 4
  if riskScore > 3/2 then "גבוה" else if riskScore > 1 then "בינוני" else "נמוך"

/-- The raw %K list of `calculateStochastic`: for every index `i ≥ 13` of
`data`, `(lastClose - lowestLow) / (highestHigh - lowestLow) * 100` over the
14-candle window ending at `i`, with 50 when the window is flat; indices
below 13 yield `null` and are filtered out. -/
def stochKValues (data : List CandleData) : List ℚ :=
  (List.range data.length).filterMap (fun i =>
    if i < 14 - 1 then none
    else
      let slice := (data.drop (i + 1 - 14)).take 14
      let highest := maxList (slice.map CandleData.high)
      let lowest := minList (slice.map CandleData.low)
      let lastClose := (slice.getLastD dummyCandle).close
      if highest = lowest then some 50
      else some ((lastClose - lowest) / (highest - lowest) * 100))

/-- The moving-average smoothing loops of `calculateStochastic`: window
means of width `w` for every start `i` with `i + w ≤ xs.length`. -/
def slidingMean (w : ℕ) (xs : List ℚ) : List ℚ :=
  (List.range (xs.length + 1 - w)).map (fun i =>
    sumList ((xs.drop i).take w) / (w : ℚ))

/-- The smoothed K line (width-3 SMA of the raw %K values). -/
def stochSmoothedK (data : List CandleData) : List ℚ :=
  slidingMean 3 (stochKValues data)

/-- The D line (width-3 SMA of the smoothed K line). -/
def stochSmoothedD (data : List CandleData) : List ℚ :=
  slidingMean 3 (stochSmoothedK data)

/-- Result record of `calculateStochastic`. -/
structure Stochastic where
  k : ℚ
  d : ℚ
deriving DecidableEq

/-- `calculateStochastic(data)` (period 14, kPeriod 3, dPeriod 3): the last
smoothed K and D values, or `{k: 50, d: 50}` when either smoothing produced
an empty list. -/
def calculateStochastic (data : List CandleData) : Stochastic :=
  if stochSmoothedK data = [] ∨ stochSmoothedD data = [] then
    { k := 50, d := 50 }
  else
    { k := (stochSmoothedK data).getLastD 0
      d := (stochSmoothedD data).getLastD 0 }

/-- Result record of `calculateMACD`. -/
structure MACD where
  macdLine : ℚ
  signalLine : ℚ
  histogram : ℚ
deriving DecidableEq

/-- `calculateMACD(data)`: EMA(12) − EMA(26) of the slice; the signal line
is `calculateEMA([{close: macdLine}], 9)` — an EMA over the single-element
array built from the MACD value (only `close` is populated; the other
fields, `undefined` in JS, are never read and are modelled as 0);
histogram = MACD − signal.  `none` models the JS `TypeError` on `[]`. -/
def calculateMACD (data : List CandleData) : Option MACD :=
  match calculateEMA data (some 12), calculateEMA data (some 26) with
  | some ema12, some ema26 =>
    let macdLine := ema12 - ema26
    match calculateEMA [⟨0, 0, 0, 0, macdLine, 0⟩] (some 9) with
    | some signalLine => some ⟨macdLine, signalLine, macdLine - signalLine⟩
    | none => none
  | _, _ => none

--=============================================================================
-- UTILITY FUNCTIONS
--=============================================================================

/-- The `indicators` block of the summary report. -/
structure SummaryIndicators where
  sma50 : ℚ
  sma200 : ℚ
  rsi : ℚ
  stochastic : Stochastic
  bollingerBands : BollingerBands
  momentum : ℚ
  atr : ℚ
  volatility : ℚ

/-- The `levels` block of the summary report. -/
structure SummaryLevels where
  support : ℚ
  resistance : ℚ
  volumePOC : ℚ

/-- The fully populated report of `getTechnicalAnalysisSummary`. -/
structure TAReport where
  lastPrice : ℚ
  trend : String
  marketCondition : String
  riskLevel : String
  indicators : SummaryIndicators
  levels : SummaryLevels
  signals : List String

/-- Return shape of `getTechnicalAnalysisSummary`: either the
`{error: "Not enough data for reliable analysis"}` object or the report. -/
inductive SummaryResult where
  | insufficientData (error : String)
  | report (r : TAReport)

/-- `getTechnicalAnalysisSummary(data)`: rejects series below 200 candles
with the error object, otherwise assembles every indicator exactly as the
source does (slices `-100`, `-50`, `-200`, `-14`; the trend / market
condition ladders; the cumulative signal pushes). -/
def getTechnicalAnalysisSummary (sqrtFn : ℚ → ℚ) (data : List CandleData) :
    SummaryResult :=
  if data.length < 200 then
    .insufficientData "Not enough data for reliable analysis"
  else
    let recentData := lastN 100 data
    let shortTermData := lastN 14 data
    let sma50 := calculateSMA (lastN 50 data) 50
    let sma200 := calculateSMA (lastN 200 data) 200
    let rsi := calculateRSI shortTermData 14
    let stoch := calculateStochastic recentData
    let bands := calculateBollingerBands sqrtFn recentData 20 2
    let momentum := calculateMomentum shortTermData
    let sr := findSupportResistanceAndOrderBlocks recentData
    let atr := calculateATR shortTermData 14
    let volatility := calculateVolatility sqrtFn shortTermData 20
    let volumeProfile := analyzeVolumeProfile recentData
    let lastClose := (data.getLastD dummyCandle).close
    let priceAboveSMA50 := lastClose > sma50
    let priceAboveSMA200 := lastClose > sma200
    let sma50AboveSMA200 := sma50 > sma200
    let trend :=
      if priceAboveSMA50 ∧ priceAboveSMA200 ∧ sma50AboveSMA200 then
        "Strong Bullish"
      else if priceAboveSMA50 ∧ sma50AboveSMA200 then "Bullish"
      else if ¬priceAboveSMA50 ∧ ¬priceAboveSMA200 ∧ ¬sma50AboveSMA200 then
        "Strong Bearish"
      else if ¬priceAboveSMA50 ∧ ¬sma50AboveSMA200 then "Bearish"
      else "Neutral"
    let marketCondition :=
      if rsi > 70 ∧ stoch.k > 80 ∧ stoch.d > 80 then "Strongly Overbought"
      else if rsi > 60 ∧ stoch.k > 70 then "Overbought"
      else if rsi < 30 ∧ stoch.k < 20 ∧ stoch.d < 20 then "Strongly Oversold"
      else if rsi < 40 ∧ stoch.k < 30 then "Oversold"
      else "Neutral"
    let riskLevel := calculateRiskLevel rsi volatility momentum atr
    let signals :=
      (if rsi < 30 ∧ trend ≠ "Strong Bearish" then
        ["RSI Oversold - Potential Buy"] else []) ++
      (if rsi > 70 ∧ trend ≠ "Strong Bullish" then
        ["RSI Overbought - Potential Sell"] else []) ++
      (if stoch.k < stoch.d ∧ stoch.k < 20 ∧ stoch.d < 20 then
        ["Stochastic Oversold - Watch for Bull Cross"] else []) ++
      (if stoch.k > stoch.d ∧ stoch.k > 80 ∧ stoch.d > 80 then
        ["Stochastic Overbought - Watch for Bear Cross"] else []) ++
      (if lastClose < bands.lower then
        ["Price below Lower Bollinger Band - Potential Buy"] else []) ++
      (if lastClose > bands.upper then
        ["Price above Upper Bollinger Band - Potential Sell"] else [])
    .report
      { lastPrice := lastClose
        trend := trend
        marketCondition := marketCondition
        riskLevel := riskLevel
        indicators :=
          { sma50 := sma50
            sma200 := sma200
            rsi := rsi
            stochastic := stoch
            bollingerBands := bands
            momentum := momentum
            atr := atr
            volatility := volatility }
        levels :=
          { support := sr.support
            resistance := sr.resistance
            volumePOC := volumeProfile.poc }
        signals := signals }

/-- Result record of `calculateVolumeProfile` (the bucketed variant). -/
structure VolumeProfile where
  profile : List ℚ
  poc : ℚ
  valueArea : ℚ
deriving DecidableEq

/-- The `forEach` body of `calculateVolumeProfile`: bucket index
`Math.floor((avgPrice - low) / levelSize)` of the candle midpoint, volume
added only when `0 ≤ index < levels` (`profile[levelIndex] += volume`). -/
def vpAccumulate (low levelSize : ℚ) (levels : ℕ) (prof : List ℚ)
    (c : CandleData) : List ℚ :=
  if 0 ≤ ⌊((c.high + c.low) / 2 - low) / levelSize⌋ ∧
      ⌊((c.high + c.low) / 2 - low) / levelSize⌋ < (levels : ℤ) then
    prof.set (⌊((c.high + c.low) / 2 - low) / levelSize⌋).toNat
      (prof.getD (⌊((c.high + c.low) / 2 - low) / levelSize⌋).toNat 0 + c.volume)
  else prof

/-- The bucket array of `calculateVolumeProfile`: `levels` zeroes, then one
`vpAccumulate` pass per candle, with `low = min(low)`,
`levelSize = (max(high) - min(low)) / levels` over the slice. -/
def volumeProfileBuckets (data : List CandleData) (levels : ℕ) : List ℚ :=
  data.foldl
    (vpAccumulate (minList (data.map CandleData.low))
      ((maxList (data.map CandleData.high) - minList (data.map CandleData.low)) /
        (levels : ℚ))
      levels)
    (List.replicate levels 0)

/-- `calculateVolumeProfile(data, levels = 10)`: splits
`[min(low), max(high)]` into `levels` equal-width buckets via
`volumeProfileBuckets`; `poc` is the lower price bound of the first bucket
attaining the maximal volume (`indexOf` of the max); `valueArea` is 70% of
the accumulated volume. -/
def calculateVolumeProfile (data : List CandleData) (levels : ℕ) :
    VolumeProfile :=
  let low := minList (data.map CandleData.low)
  let levelSize :=
    (maxList (data.map CandleData.high) - low) / (levels : ℚ)
  let profile := volumeProfileBuckets data levels
  { profile := profile
    poc := low + ((profile.indexOf (maxList profile) : ℕ) : ℚ) * levelSize
    valueArea := sumList profile * (7 / 10) }

--=============================================================================
-- HELPER LEMMAS
--=============================================================================

theorem foldl_add_shift (xs : List ℚ) : ∀ a b : ℚ,
    xs.foldl (· + ·) (a + b) = a + xs.foldl (· + ·) b := by
  induction xs with
  | nil => intro a b; rfl
  | cons x t ih =>
    intro a b
    show t.foldl (· + ·) (a + b + x) = a + t.foldl (· + ·) (b + x)
    rw [add_assoc, ih]

theorem sumList_cons (x : ℚ) (xs : List ℚ) :
    sumList (x :: xs) = x + sumList xs := by
  show xs.foldl (· + ·) (0 + x) = x + xs.foldl (· + ·) 0
  rw [zero_add, ← foldl_add_shift xs x 0]
  norm_num

theorem sumList_eq_sum (xs : List ℚ) : sumList xs = xs.sum := by
  induction xs with
  | nil => rfl
  | cons x t ih => rw [sumList_cons, List.sum_cons, ih]

theorem sumList_nonneg (xs : List ℚ) (h : ∀ x ∈ xs, 0 ≤ x) : 0 ≤ sumList xs := by
  rw [sumList_eq_sum]
  exact List.sum_nonneg h

theorem mem_getLastD {α : Type} (l : List α) (d : α) (h : l ≠ []) :
    l.getLastD d ∈ l := by
  induction l with
  | nil => exact absurd rfl h
  | cons a t ih =>
    cases t with
    | nil => simp [List.getLastD]
    | cons b t2 =>
      have : (a :: b :: t2).getLastD d = (b :: t2).getLastD d := rfl
      rw [this]
      exact List.mem_cons_of_mem a (ih (by simp))

theorem le_foldl_max (x : ℚ) (xs : List ℚ) : x ≤ xs.foldl max x := by
  induction xs generalizing x with
  | nil => exact le_rfl
  | cons y t ih => exact le_trans (le_max_left x y) (ih (max x y))

theorem mem_le_foldl_max (a x : ℚ) (xs : List ℚ) (h : a ∈ xs) :
    a ≤ xs.foldl max x := by
  induction xs generalizing x with
  | nil => cases h
  | cons y t ih =>
    rcases List.mem_cons.mp h with rfl | h2
    · exact le_trans (le_max_right x a) (le_foldl_max (max x a) t)
    · exact ih (max x y) h2

theorem le_maxList (a : ℚ) (l : List ℚ) (h : a ∈ l) : a ≤ maxList l := by
  cases l with
  | nil => cases h
  | cons x t =>
    rcases List.mem_cons.mp h with rfl | h2
    · exact le_foldl_max a t
    · exact mem_le_foldl_max a x t h2

theorem foldl_min_le (x : ℚ) (xs : List ℚ) : xs.foldl min x ≤ x := by
  induction xs generalizing x with
  | nil => exact le_rfl
  | cons y t ih => exact le_trans (ih (min x y)) (min_le_left x y)

theorem foldl_min_le_mem (a x : ℚ) (xs : List ℚ) (h : a ∈ xs) :
    xs.foldl min x ≤ a := by
  induction xs generalizing x with
  | nil => cases h
  | cons y t ih =>
    rcases List.mem_cons.mp h with rfl | h2
    · exact le_trans (foldl_min_le (min x a) t) (min_le_right x a)
    · exact ih (min x y) h2

theorem minList_le (a : ℚ) (l : List ℚ) (h : a ∈ l) : minList l ≤ a := by
  cases l with
  | nil => cases h
  | cons x t =>
    rcases List.mem_cons.mp h with rfl | h2
    · exact foldl_min_le a t
    · exact foldl_min_le_mem a x t h2

--=============================================================================
-- CLAIM THEOREMS
--=============================================================================

/-- C5: for every sqrt interpretation, input series, period and multiplier,
the Bollinger Bands are symmetric about the middle band:
`upper - middle = middle - lower`. -/
theorem C5_bollinger_symmetry (sqrtFn : ℚ → ℚ) (data : List CandleData)
    (period : ℕ) (stdDev : ℚ) :
    (calculateBollingerBands sqrtFn data period stdDev).upper -
      (calculateBollingerBands sqrtFn data period stdDev).middle =
    (calculateBollingerBands sqrtFn data period stdDev).middle -
      (calculateBollingerBands sqrtFn data period stdDev).lower := by
  simp [calculateBollingerBands]

/-- C1: `getTechnicalAnalysisSummary` returns the insufficient-data error
object on fewer than 200 candles, and a fully populated report (no error)
on at least 200 candles. -/
theorem C1_summary_gating (sqrtFn : ℚ → ℚ) (data : List CandleData) :
    (data.length < 200 →
      getTechnicalAnalysisSummary sqrtFn data =
        .insufficientData "Not enough data for reliable analysis") ∧
    (200 ≤ data.length →
      ∃ r, getTechnicalAnalysisSummary sqrtFn data = .report r) := by
  constructor
  · intro h
    rw [getTechnicalAnalysisSummary, if_pos h]
  · intro h
    rw [getTechnicalAnalysisSummary, if_neg (by omega)]
    exact ⟨_, rfl⟩

/-- Witness for C1 at concrete inputs: 199 candles give the error result,
200 candles give a report. -/
theorem C1_summary_gating_witness :
    getTechnicalAnalysisSummary id (List.replicate 199 dummyCandle) =
      .insufficientData "Not enough data for reliable analysis" ∧
    ∃ r, getTechnicalAnalysisSummary id (List.replicate 200 dummyCandle) =
      .report r :=
  ⟨(C1_summary_gating id _).1 (by rw [List.length_replicate]; omega),
   (C1_summary_gating id _).2 (by rw [List.length_replicate])⟩

/-- C9: `calculateEMA` has no empty-series guard (the model returns `none`,
the JS source throws), is total on non-empty series, and returns the single
candle's close for a one-candle series regardless of the period; by
contrast `calculateSMA` returns 0 on the empty series. -/
theorem C9_ema_partiality :
    (∀ p, calculateEMA [] p = none) ∧
    (∀ (data : List CandleData) (p : Option ℚ), data ≠ [] →
      (calculateEMA data p).isSome = true) ∧
    (∀ (c : CandleData) (p : Option ℚ), calculateEMA [c] p = some c.close) ∧
    (∀ period : ℕ, calculateSMA [] period = 0) := by
  refine ⟨fun _ => rfl, ?_, fun c p => rfl, ?_⟩
  · intro data p h
    cases data with
    | nil => exact absurd rfl h
    | cons c t => rfl
  · intro period
    rcases Nat.eq_zero_or_pos period with rfl | hp
    · simp [calculateSMA, sumList, lastN]
    · simp [calculateSMA, hp]

/-- Witness for C9 at concrete inputs. -/
theorem C9_ema_partiality_witness :
    (calculateEMA [dummyCandle] none).isSome = true ∧
    calculateEMA [] none = none ∧
    calculateEMA [dummyCandle] (some 100) = some dummyCandle.close ∧
    calculateSMA [] 5 = 0 :=
  ⟨C9_ema_partiality.2.1 [dummyCandle] none (by simp),
   C9_ema_partiality.1 none,
   C9_ema_partiality.2.2.1 dummyCandle (some 100),
   C9_ema_partiality.2.2.2 5⟩

/-- C8: for every non-empty series, `calculateMACD` succeeds, its signal
line equals its MACD line (the one-point EMA is a passthrough), and the
histogram is exactly 0. -/
theorem C8_macd_degenerate (data : List CandleData) (h : data ≠ []) :
    ∃ m, calculateMACD data = some m ∧
      m.signalLine = m.macdLine ∧ m.histogram = 0 := by
  cases data with
  | nil => exact absurd rfl h
  | cons c t => exact ⟨_, rfl, rfl, sub_self _⟩

/-- Witness for C8 at a concrete one-candle series. -/
theorem C8_macd_degenerate_witness :
    ∃ m, calculateMACD [dummyCandle] = some m ∧
      m.signalLine = m.macdLine ∧ m.histogram = 0 :=
  C8_macd_degenerate [dummyCandle] (by simp)

/-- C4 counterexample: on the two-candle series `[A, B]` of the claim
(`A = (t=1, o=10, h=11, l=7, c=8)`, `B = (t=2, o=9, h=12, l=9, c=12)`),
`findOrderBlocks` returns the empty list, not one bullish block — the loop
starts at index 1 and requires `i < length - 1`, so it never examines the
pair `(data[0], data[1])`. -/
theorem C4_two_candle_counterexample :
    findOrderBlocks [⟨1, 10, 11, 7, 8, 0⟩, ⟨2, 9, 12, 9, 12, 0⟩] = [] ∧
    findOrderBlocks [⟨1, 10, 11, 7, 8, 0⟩, ⟨2, 9, 12, 9, 12, 0⟩] ≠
      [⟨.bullish, 11, 7, 1⟩] := by
  constructor <;> decide

/-- C4 amended: the bearish/bullish pair is only detected when the bearish
candle sits at an index `i` with `1 ≤ i` and `i + 1 ≤ length - 1`; embedding
the claim's candles `A`, `B` at indices 1 and 2 (any candle `X` prepended)
yields exactly one bullish block with `top = 11`, `bottom = 7`,
`time = A.time`; in general every such in-range pair contributes a bullish
block to the result. -/
theorem C4_order_block_amended :
    (∀ X : CandleData,
      findOrderBlocks [X, ⟨1, 10, 11, 7, 8, 0⟩, ⟨2, 9, 12, 9, 12, 0⟩] =
        [⟨.bullish, 11, 7, 1⟩]) ∧
    (∀ (data : List CandleData) (i : ℕ),
      1 ≤ i → i + 1 < data.length →
      (data.getD i dummyCandle).close < (data.getD i dummyCandle).«open» →
      (data.getD (i + 1) dummyCandle).close >
        (data.getD (i + 1) dummyCandle).«open» →
      (data.getD (i + 1) dummyCandle).close > (data.getD i dummyCandle).high →
      (⟨.bullish, (data.getD i dummyCandle).high, (data.getD i dummyCandle).low,
        (data.getD i dummyCandle).time⟩ : OrderBlock) ∈ findOrderBlocks data) := by
  constructor
  · intro X
    show findOrderBlocks (X :: _) = _
    simp only [findOrderBlocks, List.length_cons, List.length_nil]
    norm_num [List.range']
  · intro data i h1 h2 hc1 hc2 hc3
    unfold findOrderBlocks
    rw [List.mem_flatMap]
    refine ⟨i, ?_, ?_⟩
    · rw [List.mem_range'_1]
      omega
    · rw [List.mem_append]
      left
      rw [if_pos ⟨hc1, hc2, hc3⟩]
      exact List.mem_singleton_self _

/-- Witness for C4 at concrete inputs: the amended three-candle series
produces exactly the expected bullish block, and the general in-range rule
applied at `i = 1` finds it. -/
theorem C4_order_block_amended_witness :
    findOrderBlocks [dummyCandle, ⟨1, 10, 11, 7, 8, 0⟩, ⟨2, 9, 12, 9, 12, 0⟩] =
      [⟨.bullish, 11, 7, 1⟩] ∧
    (⟨.bullish, 11, 7, 1⟩ : OrderBlock) ∈
      findOrderBlocks [dummyCandle, ⟨1, 10, 11, 7, 8, 0⟩, ⟨2, 9, 12, 9, 12, 0⟩] :=
  ⟨C4_order_block_amended.1 dummyCandle,
   C4_order_block_amended.2
     [dummyCandle, ⟨1, 10, 11, 7, 8, 0⟩, ⟨2, 9, 12, 9, 12, 0⟩] 1
     (by decide) (by decide) (by decide) (by decide) (by decide)⟩

/-- C3: insufficient data yields documented defaults — `calculateSMA` on a
series shorter than the period returns the last close (0 when empty),
`calculateRSI` below `period + 1` candles returns 50, and
`calculateStochastic` returns `{k: 50, d: 50}` whenever either smoothed
sequence is empty. -/
theorem C3_insufficient_defaults (data : List CandleData) (period : ℕ) :
    (data.length < period → data ≠ [] →
      calculateSMA data period = (data.getLastD dummyCandle).close) ∧
    (calculateSMA [] period = 0) ∧
    (data.length < period + 1 → calculateRSI data period = 50) ∧
    (stochSmoothedK data = [] ∨ stochSmoothedD data = [] →
      calculateStochastic data = ⟨50, 50⟩) := by
  refine ⟨?_, ?_, ?_, ?_⟩
  · intro h hne
    have hs : data.getLast?.isSome := by simp [List.getLast?_isSome, hne]
    obtain ⟨x, hx⟩ := Option.isSome_iff_exists.mp hs
    simp [calculateSMA, if_pos h, hx, List.getLastD_eq_getLast?]
  · rcases Nat.eq_zero_or_pos period with rfl | hp
    · simp [calculateSMA, sumList, lastN]
    · simp [calculateSMA, hp]
  · intro h
    rw [calculateRSI, if_pos h]
  · intro h
    simp only [calculateStochastic]
    rw [if_pos h]

/-- Witness for C3 at concrete inputs. -/
theorem C3_insufficient_defaults_witness :
    calculateSMA [⟨1, 10, 11, 7, 8, 0⟩] 3 = 8 ∧
    calculateSMA [] 3 = 0 ∧
    calculateRSI [⟨1, 10, 11, 7, 8, 0⟩] 14 = 50 ∧
    calculateStochastic [] = ⟨50, 50⟩ :=
  ⟨(C3_insufficient_defaults [⟨1, 10, 11, 7, 8, 0⟩] 3).1 (by decide) (by decide),
   (C3_insufficient_defaults [] 3).2.1,
   (C3_insufficient_defaults [⟨1, 10, 11, 7, 8, 0⟩] 14).2.2.1 (by decide),
   (C3_insufficient_defaults [] 14).2.2.2 (Or.inl (by decide))⟩

/-- C6: for every series and positive period, `calculateATR` is exactly the
sum of the consecutive-pair true ranges divided by `period`, and the result
is non-negative (each true range dominates a non-negative absolute value). -/
theorem C6_atr_normalization_nonneg (data : List CandleData) (period : ℚ)
    (h : 0 < period) :
    calculateATR data period = sumList (trueRanges data) / period ∧
    0 ≤ calculateATR data period := by
  refine ⟨rfl, ?_⟩
  unfold calculateATR
  apply div_nonneg _ (le_of_lt h)
  apply sumList_nonneg
  intro x hx
  unfold trueRanges at hx
  obtain ⟨pc, _, rfl⟩ := List.mem_map.mp hx
  exact le_trans (abs_nonneg (pc.2.high - pc.1.close))
    (le_trans (le_max_left _ _) (le_max_right _ _))

/-- Witness for C6 at a concrete series and the default period 14. -/
theorem C6_atr_normalization_nonneg_witness :
    calculateATR [⟨1, 10, 11, 7, 8, 0⟩, ⟨2, 9, 12, 9, 12, 0⟩] 14 =
      sumList (trueRanges [⟨1, 10, 11, 7, 8, 0⟩, ⟨2, 9, 12, 9, 12, 0⟩]) / 14 ∧
    0 ≤ calculateATR [⟨1, 10, 11, 7, 8, 0⟩, ⟨2, 9, 12, 9, 12, 0⟩] 14 :=
  C6_atr_normalization_nonneg _ 14 (by norm_num)

theorem foldl_add_map (g : CandleData → ℚ) (data : List CandleData) :
    ∀ a : ℚ, data.foldl (fun acc c => acc + g c) a = a + sumList (data.map g) := by
  induction data with
  | nil => intro a; simp [sumList]
  | cons c t ih =>
    intro a
    show t.foldl _ (a + g c) = _
    rw [ih (a + g c), List.map_cons, sumList_cons]
    ring

theorem fillCumulative_getLastD (l : List DeltaVolume) :
    ∀ acc : ℚ, l ≠ [] →
      ((fillCumulative acc l).getLastD ⟨0, 0, 0⟩).cumulative =
        acc + sumList (l.map DeltaVolume.delta) := by
  induction l with
  | nil => intro acc h; exact absurd rfl h
  | cons dv rest ih =>
    intro acc _
    cases rest with
    | nil =>
      show (⟨dv.time, dv.delta, acc + dv.delta⟩ : DeltaVolume).cumulative = _
      rw [List.map_cons, List.map_nil, sumList_cons]
      show acc + dv.delta = acc + (dv.delta + sumList [])
      show acc + dv.delta = acc + (dv.delta + 0)
      ring
    | cons dv2 rest2 =>
      have step : fillCumulative acc (dv :: dv2 :: rest2) =
          ⟨dv.time, dv.delta, acc + dv.delta⟩ ::
            fillCumulative (acc + dv.delta) (dv2 :: rest2) := rfl
      have tail : fillCumulative (acc + dv.delta) (dv2 :: rest2) =
          ⟨dv2.time, dv2.delta, acc + dv.delta + dv2.delta⟩ ::
            fillCumulative (acc + dv.delta + dv2.delta) rest2 := rfl
      rw [step, tail]
      have glast : ∀ (x : DeltaVolume) (y : DeltaVolume) (t : List DeltaVolume),
          (x :: y :: t).getLastD (⟨0, 0, 0⟩ : DeltaVolume) =
            (y :: t).getLastD ⟨0, 0, 0⟩ := fun x y t => rfl
      rw [glast, ← tail, ih (acc + dv.delta) (by simp)]
      simp only [List.map_cons, sumList_cons]
      ring

theorem calculateCVD_eq_sum (data : List CandleData) :
    calculateCVD data =
      sumList (data.map (fun c =>
        if c.close > c.«open» then c.volume else -c.volume)) := by
  unfold calculateCVD
  rw [foldl_add_map (fun c => if c.close > c.«open» then c.volume else -c.volume)
    data 0]
  ring

/-- C7: for every non-empty series, the `cumulative` field of the last
element of `analyzeDeltaVolume` equals the scalar `calculateCVD`, both built
from the sign rule `close > open ? +volume : -volume`. -/
theorem C7_cvd_roundtrip (data : List CandleData) (h : data ≠ []) :
    ((analyzeDeltaVolume data).getLastD ⟨0, 0, 0⟩).cumulative =
      calculateCVD data := by
  unfold analyzeDeltaVolume
  rw [fillCumulative_getLastD _ 0 (by simpa using h), zero_add,
    List.map_map, calculateCVD_eq_sum]
  rfl

/-- Witness for C7 at a concrete three-candle series. -/
theorem C7_cvd_roundtrip_witness :
    ((analyzeDeltaVolume
        [⟨1, 10, 11, 7, 8, 3⟩, ⟨2, 9, 12, 9, 12, 5⟩, ⟨3, 6, 7, 5, 6, 2⟩]).getLastD
      ⟨0, 0, 0⟩).cumulative =
    calculateCVD [⟨1, 10, 11, 7, 8, 3⟩, ⟨2, 9, 12, 9, 12, 5⟩, ⟨3, 6, 7, 5, 6, 2⟩] :=
  C7_cvd_roundtrip _ (by simp)

theorem sumList_set_add (l : List ℚ) :
    ∀ (i : ℕ) (v : ℚ), i < l.length →
      sumList (l.set i (l.getD i 0 + v)) = sumList l + v := by
  induction l with
  | nil => intro i v h; simp at h
  | cons x t ih =>
    intro i v h
    cases i with
    | zero =>
      simp only [List.set_cons_zero, List.getD_cons_zero, sumList_cons]
      ring
    | succ n =>
      simp only [List.set_cons_succ, List.getD_cons_succ, sumList_cons]
      rw [ih n v (by simpa using h)]
      ring

theorem vp_fold_length (low levelSize : ℚ) (levels : ℕ)
    (data : List CandleData) :
    ∀ prof : List ℚ,
      (data.foldl (vpAccumulate low levelSize levels) prof).length =
        prof.length := by
  induction data with
  | nil => intro prof; rfl
  | cons c t ih =>
    intro prof
    show (t.foldl _ (vpAccumulate low levelSize levels prof c)).length = _
    rw [ih]
    unfold vpAccumulate
    split
    · exact List.length_set _ _ _
    · rfl

theorem vp_fold_sum (low levelSize : ℚ) (levels : ℕ)
    (data : List CandleData) :
    ∀ prof : List ℚ, prof.length = levels → (∀ c ∈ data, 0 ≤ c.volume) →
      sumList (data.foldl (vpAccumulate low levelSize levels) prof) ≤
        sumList prof + sumList (data.map CandleData.volume) := by
  induction data with
  | nil =>
    intro prof _ _
    simp [sumList]
  | cons c t ih =>
    intro prof hlen hvol
    show sumList (t.foldl _ (vpAccumulate low levelSize levels prof c)) ≤ _
    have hstep_len : (vpAccumulate low levelSize levels prof c).length = levels := by
      unfold vpAccumulate
      split
      · rw [List.length_set]; exact hlen
      · exact hlen
    have hstep_sum : sumList (vpAccumulate low levelSize levels prof c) ≤
        sumList prof + c.volume := by
      unfold vpAccumulate
      split
      · next hcond =>
        rw [sumList_set_add prof _ c.volume (by omega)]
      · have : (0:ℚ) ≤ c.volume := hvol c (List.mem_cons_self c t)
        linarith
    calc sumList (t.foldl (vpAccumulate low levelSize levels)
            (vpAccumulate low levelSize levels prof c)) ≤
          sumList (vpAccumulate low levelSize levels prof c) +
            sumList (t.map CandleData.volume) :=
        ih _ hstep_len (fun x hx => hvol x (List.mem_cons_of_mem c hx))
      _ ≤ sumList prof + c.volume + sumList (t.map CandleData.volume) := by
          linarith
      _ = sumList prof + sumList ((c :: t).map CandleData.volume) := by
          rw [List.map_cons, sumList_cons]; ring

/-- C10: `calculateVolumeProfile` only accumulates a candle's volume when
its midpoint's bucket index lies in `[0, levels)`, so the bucket total never
exceeds (and can be strictly below) the series' total volume, and the
profile array always has exactly `levels` entries (no out-of-bounds write);
the concrete series exhibits a candle whose midpoint equals the series
maximum high (bucket index = `levels`), whose volume reaches no bucket. -/
theorem C10_volume_profile_bounds :
    (∀ (data : List CandleData) (levels : ℕ), (∀ c ∈ data, 0 ≤ c.volume) →
      sumList (calculateVolumeProfile data levels).profile ≤
        sumList (data.map CandleData.volume)) ∧
    (∀ (data : List CandleData) (levels : ℕ),
      (calculateVolumeProfile data levels).profile.length = levels) ∧
    (sumList (calculateVolumeProfile
        [⟨0, 1, 10, 0, 5, 1⟩, ⟨1, 10, 10, 10, 10, 1⟩] 10).profile = 1 ∧
      sumList (([⟨0, 1, 10, 0, 5, 1⟩, ⟨1, 10, 10, 10, 10, 1⟩] :
        List CandleData).map CandleData.volume) = 2 ∧
      ((10:ℚ) + 10) / 2 =
        maxList (([⟨0, 1, 10, 0, 5, 1⟩, ⟨1, 10, 10, 10, 10, 1⟩] :
          List CandleData).map CandleData.high)) := by
  refine ⟨?_, ?_, ?_, ?_, ?_⟩
  · intro data levels hvol
    have : (calculateVolumeProfile data levels).profile =
        volumeProfileBuckets data levels := rfl
    rw [this]
    unfold volumeProfileBuckets
    have h0 : sumList (List.replicate levels (0:ℚ)) = 0 := by
      rw [sumList_eq_sum]; simp
    calc sumList (data.foldl _ (List.replicate levels 0)) ≤
          sumList (List.replicate levels (0:ℚ)) +
            sumList (data.map CandleData.volume) :=
        vp_fold_sum _ _ levels data _ (List.length_replicate levels 0) hvol
      _ = sumList (data.map CandleData.volume) := by rw [h0]; ring
  · intro data levels
    have : (calculateVolumeProfile data levels).profile =
        volumeProfileBuckets data levels := rfl
    rw [this]
    unfold volumeProfileBuckets
    rw [vp_fold_length]
    exact List.length_replicate levels 0
  · show sumList (volumeProfileBuckets _ 10) = 1
    unfold volumeProfileBuckets
    simp only [List.map_cons, List.map_nil, List.foldl_cons, List.foldl_nil]
    norm_num [vpAccumulate, maxList, minList, sumList, List.replicate,
      List.set, Int.toNat]
  · norm_num [List.map_cons, sumList_cons, sumList]
  · norm_num [maxList, minList, List.map_cons]

/-- Witness for C10: the general bound and length facts applied at the
concrete two-candle series with ten levels. -/
theorem C10_volume_profile_bounds_witness :
    sumList (calculateVolumeProfile
        [⟨0, 1, 10, 0, 5, 1⟩, ⟨1, 10, 10, 10, 10, 1⟩] 10).profile ≤
      sumList (([⟨0, 1, 10, 0, 5, 1⟩, ⟨1, 10, 10, 10, 10, 1⟩] :
        List CandleData).map CandleData.volume) ∧
    (calculateVolumeProfile
        [⟨0, 1, 10, 0, 5, 1⟩, ⟨1, 10, 10, 10, 10, 1⟩] 10).profile.length = 10 :=
  ⟨C10_volume_profile_bounds.1 _ 10 (by decide),
   C10_volume_profile_bounds.2.1 _ 10⟩

theorem rsi_init_fold_nonneg (cs : List ℚ) :
    ∀ gl : ℚ × ℚ, 0 ≤ gl.1 → 0 ≤ gl.2 →
      0 ≤ (cs.foldl
        (fun gl c => if 0 ≤ c then (gl.1 + c, gl.2) else (gl.1, gl.2 - c))
        gl).1 ∧
      0 ≤ (cs.foldl
        (fun gl c => if 0 ≤ c then (gl.1 + c, gl.2) else (gl.1, gl.2 - c))
        gl).2 := by
  induction cs with
  | nil => intro gl h1 h2; exact ⟨h1, h2⟩
  | cons c t ih =>
    intro gl h1 h2
    simp only [List.foldl_cons]
    by_cases hc : 0 ≤ c
    · rw [if_pos hc]
      exact ih (gl.1 + c, gl.2) (add_nonneg h1 hc) h2
    · rw [if_neg hc]
      push_neg at hc
      exact ih (gl.1, gl.2 - c) h1 (by show 0 ≤ gl.2 - c; linarith)

theorem rsi_smooth_fold_nonneg (p : ℚ) (hp : 1 ≤ p) (cs : List ℚ) :
    ∀ gl : ℚ × ℚ, 0 ≤ gl.1 → 0 ≤ gl.2 →
      0 ≤ (cs.foldl (rsiStep p) gl).1 ∧ 0 ≤ (cs.foldl (rsiStep p) gl).2 := by
  induction cs with
  | nil => intro gl h1 h2; exact ⟨h1, h2⟩
  | cons c t ih =>
    intro gl h1 h2
    simp only [List.foldl_cons]
    have hp0 : (0:ℚ) ≤ p := by linarith
    have hp1 : (0:ℚ) ≤ p - 1 := by linarith
    have hstep : 0 ≤ (rsiStep p gl c).1 ∧ 0 ≤ (rsiStep p gl c).2 := by
      unfold rsiStep
      by_cases hc : 0 ≤ c
      · rw [if_pos hc]
        exact ⟨div_nonneg (add_nonneg (mul_nonneg h1 hp1) hc) hp0,
          div_nonneg (mul_nonneg h2 hp1) hp0⟩
      · rw [if_neg hc]
        push_neg at hc
        refine ⟨div_nonneg (mul_nonneg h1 hp1) hp0, div_nonneg ?_ hp0⟩
        have : 0 ≤ gl.2 * (p - 1) := mul_nonneg h2 hp1
        show 0 ≤ gl.2 * (p - 1) - c
        linarith
    exact ih (rsiStep p gl c) hstep.1 hstep.2

theorem rsiFinalAvg_nonneg (data : List CandleData) (period : ℕ)
    (hper : 1 ≤ period) :
    0 ≤ (rsiFinalAvg data period).1 ∧ 0 ≤ (rsiFinalAvg data period).2 := by
  have hp : (1:ℚ) ≤ (period : ℚ) := by exact_mod_cast hper
  have hp0 : (0:ℚ) ≤ (period : ℚ) := by linarith
  have hinit := rsi_init_fold_nonneg ((closeChanges data).take period) (0, 0)
    le_rfl le_rfl
  have h1 : 0 ≤ (rsiInitAvg data period).1 := div_nonneg hinit.1 hp0
  have h2 : 0 ≤ (rsiInitAvg data period).2 := div_nonneg hinit.2 hp0
  exact rsi_smooth_fold_nonneg (period : ℚ) hp ((closeChanges data).drop period)
    (rsiInitAvg data period) h1 h2

theorem calculateRSI_bounds (data : List CandleData) (period : ℕ)
    (hper : 1 ≤ period) :
    0 ≤ calculateRSI data period ∧ calculateRSI data period ≤ 100 := by
  by_cases hlen : data.length < period + 1
  · rw [calculateRSI, if_pos hlen]; norm_num
  · rw [calculateRSI, if_neg hlen]
    by_cases hz : (rsiFinalAvg data period).2 = 0
    · rw [if_pos hz]; norm_num
    · rw [if_neg hz]
      obtain ⟨hg, hl⟩ := rsiFinalAvg_nonneg data period hper
      have hlpos : 0 < (rsiFinalAvg data period).2 := lt_of_le_of_ne hl (Ne.symm hz)
      have hrs : 0 ≤ (rsiFinalAvg data period).1 / (rsiFinalAvg data period).2 :=
        div_nonneg hg (le_of_lt hlpos)
      have hd : (0:ℚ) < 1 + (rsiFinalAvg data period).1 / (rsiFinalAvg data period).2 := by
        linarith
      have hle : 100 / (1 + (rsiFinalAvg data period).1 /
          (rsiFinalAvg data period).2) ≤ 100 :=
        div_le_self (by norm_num) (by linarith)
      have hpos : 0 < 100 / (1 + (rsiFinalAvg data period).1 /
          (rsiFinalAvg data period).2) :=
        div_pos (by norm_num) hd
      constructor <;> linarith

theorem stochKValues_mem_bounds (data : List CandleData)
    (hvalid : ∀ c ∈ data, c.low ≤ c.close ∧ c.close ≤ c.high) :
    ∀ k ∈ stochKValues data, 0 ≤ k ∧ k ≤ 100 := by
  intro k hk
  unfold stochKValues at hk
  obtain ⟨i, _, hf⟩ := List.mem_filterMap.mp hk
  by_cases hlt : i < 14 - 1
  · simp only [if_pos hlt] at hf
    exact Option.noConfusion hf
  · simp only [if_neg hlt] at hf
    by_cases hfl :
        maxList (((data.drop (i + 1 - 14)).take 14).map CandleData.high) =
          minList (((data.drop (i + 1 - 14)).take 14).map CandleData.low)
    · rw [if_pos hfl] at hf
      injection hf with h
      subst h
      norm_num
    · rw [if_neg hfl] at hf
      injection hf with h
      subst h
      have hne : (data.drop (i + 1 - 14)).take 14 ≠ [] := by
        intro h0
        exact hfl (by rw [h0]; rfl)
      have hlast := mem_getLastD ((data.drop (i + 1 - 14)).take 14) dummyCandle hne
      have hsub : ((data.drop (i + 1 - 14)).take 14) ⊆ data :=
        List.Sublist.subset
          ((List.take_sublist _ _).trans (List.drop_sublist _ _))
      have hv := hvalid _ (hsub hlast)
      have hlow :
          minList (((data.drop (i + 1 - 14)).take 14).map CandleData.low) ≤
            (((data.drop (i + 1 - 14)).take 14).getLastD dummyCandle).low :=
        minList_le _ _ (List.mem_map_of_mem _ hlast)
      have hhigh :
          (((data.drop (i + 1 - 14)).take 14).getLastD dummyCandle).high ≤
            maxList (((data.drop (i + 1 - 14)).take 14).map CandleData.high) :=
        le_maxList _ _ (List.mem_map_of_mem _ hlast)
      have hlo_le :
          minList (((data.drop (i + 1 - 14)).take 14).map CandleData.low) ≤
            (((data.drop (i + 1 - 14)).take 14).getLastD dummyCandle).close :=
        le_trans hlow hv.1
      have hhi_ge :
          (((data.drop (i + 1 - 14)).take 14).getLastD dummyCandle).close ≤
            maxList (((data.drop (i + 1 - 14)).take 14).map CandleData.high) :=
        le_trans hv.2 hhigh
      have hpos :
          0 < maxList (((data.drop (i + 1 - 14)).take 14).map CandleData.high) -
            minList (((data.drop (i + 1 - 14)).take 14).map CandleData.low) :=
        sub_pos.mpr (lt_of_le_of_ne (le_trans hlo_le hhi_ge) (Ne.symm hfl))
      constructor
      · exact mul_nonneg (div_nonneg (by linarith) (le_of_lt hpos)) (by norm_num)
      · have hr : (((data.drop (i + 1 - 14)).take 14).getLastD dummyCandle).close -
            minList (((data.drop (i + 1 - 14)).take 14).map CandleData.low) ≤
            maxList (((data.drop (i + 1 - 14)).take 14).map CandleData.high) -
            minList (((data.drop (i + 1 - 14)).take 14).map CandleData.low) := by
          linarith
        have h1 : (((data.drop (i + 1 - 14)).take 14).getLastD dummyCandle).close -
            minList (((data.drop (i + 1 - 14)).take 14).map CandleData.low) ≤
            (maxList (((data.drop (i + 1 - 14)).take 14).map CandleData.high) -
              minList (((data.drop (i + 1 - 14)).take 14).map CandleData.low)) * 1 := by
          linarith
        have hd1 : ((((data.drop (i + 1 - 14)).take 14).getLastD dummyCandle).close -
              minList (((data.drop (i + 1 - 14)).take 14).map CandleData.low)) /
            (maxList (((data.drop (i + 1 - 14)).take 14).map CandleData.high) -
              minList (((data.drop (i + 1 - 14)).take 14).map CandleData.low)) ≤ 1 :=
          (div_le_one hpos).mpr (by linarith)
        calc ((((data.drop (i + 1 - 14)).take 14).getLastD dummyCandle).close -
              minList (((data.drop (i + 1 - 14)).take 14).map CandleData.low)) /
            (maxList (((data.drop (i + 1 - 14)).take 14).map CandleData.high) -
              minList (((data.drop (i + 1 - 14)).take 14).map CandleData.low)) *
            100 ≤ 1 * 100 := by
              exact mul_le_mul_of_nonneg_right hd1 (by norm_num)
          _ = 100 := by norm_num

theorem slidingMean_mem_bounds (w : ℕ) (hw : 1 ≤ w) (xs : List ℚ) (a b : ℚ)
    (hxs : ∀ y ∈ xs, a ≤ y ∧ y ≤ b) :
    ∀ z ∈ slidingMean w xs, a ≤ z ∧ z ≤ b := by
  intro z hz
  unfold slidingMean at hz
  obtain ⟨i, hi, rfl⟩ := List.mem_map.mp hz
  rw [List.mem_range] at hi
  have hwin_len : ((xs.drop i).take w).length = w := by
    rw [List.length_take, List.length_drop]
    omega
  have hwsub : ((xs.drop i).take w) ⊆ xs :=
    List.Sublist.subset ((List.take_sublist _ _).trans (List.drop_sublist _ _))
  have hmem : ∀ y ∈ (xs.drop i).take w, a ≤ y ∧ y ≤ b :=
    fun y hy => hxs y (hwsub hy)
  have hsum_le : sumList ((xs.drop i).take w) ≤ (w : ℚ) * b := by
    rw [sumList_eq_sum]
    have := List.sum_le_card_nsmul ((xs.drop i).take w) b
      (fun y hy => (hmem y hy).2)
    rwa [hwin_len, nsmul_eq_mul] at this
  have hsum_ge : (w : ℚ) * a ≤ sumList ((xs.drop i).take w) := by
    rw [sumList_eq_sum]
    have := List.card_nsmul_le_sum ((xs.drop i).take w) a
      (fun y hy => (hmem y hy).1)
    rwa [hwin_len, nsmul_eq_mul] at this
  have hwpos : (0:ℚ) < (w : ℚ) := by
    exact_mod_cast Nat.lt_of_lt_of_le Nat.zero_lt_one hw
  constructor
  · rw [le_div_iff₀ hwpos]; linarith
  · rw [div_le_iff₀ hwpos]; linarith

theorem calculateStochastic_bounds (data : List CandleData)
    (hvalid : ∀ c ∈ data, c.low ≤ c.close ∧ c.close ≤ c.high) :
    0 ≤ (calculateStochastic data).k ∧ (calculateStochastic data).k ≤ 100 ∧
    0 ≤ (calculateStochastic data).d ∧ (calculateStochastic data).d ≤ 100 := by
  by_cases hemp : stochSmoothedK data = [] ∨ stochSmoothedD data = []
  · rw [calculateStochastic, if_pos hemp]
    norm_num
  · rw [calculateStochastic, if_neg hemp]
    push_neg at hemp
    have hK : ∀ y ∈ stochSmoothedK data, 0 ≤ y ∧ y ≤ 100 := by
      unfold stochSmoothedK
      exact slidingMean_mem_bounds 3 (by norm_num) _ 0 100
        (stochKValues_mem_bounds data hvalid)
    have hD : ∀ y ∈ stochSmoothedD data, 0 ≤ y ∧ y ≤ 100 := by
      unfold stochSmoothedD
      exact slidingMean_mem_bounds 3 (by norm_num) _ 0 100 hK
    have hk := hK _ (mem_getLastD _ 0 hemp.1)
    have hd := hD _ (mem_getLastD _ 0 hemp.2)
    exact ⟨hk.1, hk.2, hd.1, hd.2⟩

/-- C2: for every series and positive period, `calculateRSI` lies in
`[0, 100]`; and for every series of candles satisfying the data-model
invariant `low ≤ close ≤ high` (§3 of the spec, which callers must uphold),
both components of `calculateStochastic` lie in `[0, 100]`. -/
theorem C2_rsi_stochastic_bounds (data : List CandleData) (period : ℕ)
    (hper : 1 ≤ period) :
    (0 ≤ calculateRSI data period ∧ calculateRSI data period ≤ 100) ∧
    ((∀ c ∈ data, c.low ≤ c.close ∧ c.close ≤ c.high) →
      0 ≤ (calculateStochastic data).k ∧ (calculateStochastic data).k ≤ 100 ∧
      0 ≤ (calculateStochastic data).d ∧ (calculateStochastic data).d ≤ 100) :=
  ⟨calculateRSI_bounds data period hper, calculateStochastic_bounds data⟩

/-- Witness for C2 at a concrete valid two-candle series and the default
period 14. -/
theorem C2_rsi_stochastic_bounds_witness :
    (0 ≤ calculateRSI [⟨1, 10, 11, 7, 8, 2⟩, ⟨2, 9, 12, 9, 12, 3⟩] 14 ∧
      calculateRSI [⟨1, 10, 11, 7, 8, 2⟩, ⟨2, 9, 12, 9, 12, 3⟩] 14 ≤ 100) ∧
    (0 ≤ (calculateStochastic [⟨1, 10, 11, 7, 8, 2⟩, ⟨2, 9, 12, 9, 12, 3⟩]).k ∧
      (calculateStochastic [⟨1, 10, 11, 7, 8, 2⟩, ⟨2, 9, 12, 9, 12, 3⟩]).k ≤ 100 ∧
      0 ≤ (calculateStochastic [⟨1, 10, 11, 7, 8, 2⟩, ⟨2, 9, 12, 9, 12, 3⟩]).d ∧
      (calculateStochastic [⟨1, 10, 11, 7, 8, 2⟩, ⟨2, 9, 12, 9, 12, 3⟩]).d ≤ 100) :=
  ⟨(C2_rsi_stochastic_bounds [⟨1, 10, 11, 7, 8, 2⟩, ⟨2, 9, 12, 9, 12, 3⟩] 14
      (by norm_num)).1,
   (C2_rsi_stochastic_bounds [⟨1, 10, 11, 7, 8, 2⟩, ⟨2, 9, 12, 9, 12, 3⟩] 14
      (by norm_num)).2 (by decide)⟩
